import Mathlib

set_option maxHeartbeats 1000000

/-!
Shallow embedding of the drizzle-admin core: column metadata extraction
(dialects/postgresql.ts), table-name utilities (utils/table.ts), resource
validation (resources/loader.ts), view column visibility (views/index.ts,
views/show.ts, views/form.ts), form value parsing and CRUD handlers
(routes/crud.ts), and the JWT session/CSRF scheme (auth/jwt.ts,
auth/csrf.ts, auth/middleware.ts).
-/

/-- Normalized column metadata, from `dialects/types.ts` (`ColumnMeta`).
`enumValues` is `none` when the source field is absent (`undefined`). -/
structure ColumnMeta where
  name : String
  sqlName : String
  dataType : String
  isNullable : Bool
  isPrimaryKey : Bool
  hasDefault : Bool
  enumValues : Option (List String)
deriving DecidableEq, Repr

/-- A drizzle column object as consumed by the postgresql adapter:
the fields read by `extractColumns`/`mapPgType`/`extractEnumValues`.
`enumValues` models the JS field, `none` for `undefined`/`null`. -/
structure PgColumn where
  name : String
  dataType : String
  notNull : Bool
  primaryKey : Bool
  hasDefault : Bool
  enumValues : Option (List String)
deriving DecidableEq, Repr

/-- `mapPgType` from `dialects/postgresql.ts`: the if-chain checks the
primitive type identifiers first and the enum list only after all of
them miss; the final fallback is `"text"`.  JS truthiness of
`column.enumValues` is `isSome` (an array, even empty, is truthy). -/
def mapPgType (column : PgColumn) : String :=
  if column.dataType = "string" ∨ column.dataType = "text" ∨ column.dataType = "varchar" then "text"
  else if column.dataType = "number" ∨ column.dataType = "integer" ∨ column.dataType = "serial" then "integer"
  else if column.dataType = "boolean" then "boolean"
  else if column.dataType = "date" ∨ column.dataType = "timestamp" then "timestamp"
  else if column.dataType = "json" ∨ column.dataType = "jsonb" then "json"
  else if column.enumValues.isSome then "enum"
  else "text"

/-- `extractEnumValues` from `dialects/postgresql.ts`:
`column.enumValues ?? undefined`. -/
def extractEnumValues (column : PgColumn) : Option (List String) :=
  column.enumValues

/-- `extractColumns` of the postgresql adapter: one `ColumnMeta` per
entry of `getTableColumns(table)`, in declaration order.  The table's
column catalog is modelled as the association list produced by
`Object.entries`. -/
def extractColumns (columns : List (String × PgColumn)) : List ColumnMeta :=
  columns.map (fun entry =>
    { name := entry.1
      sqlName := entry.2.name
      dataType := mapPgType entry.2
      isNullable := !entry.2.notNull
      isPrimaryKey := entry.2.primaryKey
      hasDefault := entry.2.hasDefault
      enumValues := extractEnumValues entry.2 })

/-- Splitting a character list on `'_'`, the semantics of JS
`String.split('_')` (an empty string yields one empty word, adjacent
separators yield empty words). -/
def splitOnUnderscore : List Char → List (List Char)
  | [] => [[]]
  | c :: rest =>
    if c = '_' then [] :: splitOnUnderscore rest
    else
      match splitOnUnderscore rest with
      | [] => [[c]]
      | w :: ws => (c :: w) :: ws

/-- `word.charAt(0).toUpperCase() + word.slice(1)` on a word. -/
def titleCaseWord : List Char → List Char
  | [] => []
  | c :: rest => c.toUpper :: rest

/-- `tableNameToDisplayName` from `utils/table.ts`: split on `'_'`,
title-case each word, join with spaces, then `replace(/s$/, '')`
(drop a single trailing `'s'` if present). -/
def tableNameToDisplayName (tableName : String) : String :=
  let joined := List.intercalate [' '] ((splitOnUnderscore tableName.data).map titleCaseWord)
  String.mk (if joined.getLast? = some 's' then joined.dropLast else joined)

example : tableNameToDisplayName "sale_orders" = "Sale Order" := by decide
example : tableNameToDisplayName "cards" = "Card" := by decide
example : mapPgType ⟨"status", "string", true, false, false, some ["a", "b"]⟩ = "text" := by decide

/-- The fields of a `ResourceDefinition` (resources/types.ts) that
`validateResources` reads. -/
structure ResourceDef where
  tableName : String
  routePath : String
deriving DecidableEq, Repr

/-- The error string pushed by `validateResources` for a duplicated
route path, naming the first table seen with that path and the current
table. -/
def dupRouteError (routePath existing tableName : String) : String :=
  "Route path \"" ++ routePath ++ "\" is used by both \"" ++ existing ++
    "\" and \"" ++ tableName ++ "\" tables. Each table must have a unique route path."

/-- The loop of `validateResources` (resources/loader.ts): `seen` is the
`routePaths` map, an association list from route path to the first table
name registered with it; the map is extended only when the path is new. -/
def validateGo : List ResourceDef → List (String × String) → List String
  | [], _ => []
  | r :: rest, seen =>
    match seen.lookup r.routePath with
    | some existing => dupRouteError r.routePath existing r.tableName :: validateGo rest seen
    | none => validateGo rest ((r.routePath, r.tableName) :: seen)

/-- `validateResources` from `resources/loader.ts`. -/
def validateResources (resources : List ResourceDef) : List String :=
  validateGo resources []

/-- Number of resources whose route path already occurred earlier in the
list (independent reference count; `seen` collects the paths already
passed). -/
def countDupGo : List String → List String → Nat
  | [], _ => 0
  | p :: rest, seen => (if p ∈ seen then 1 else 0) + countDupGo rest (p :: seen)

/-- Number of resources preceded by another resource with the same route
path. -/
def countLaterDups (paths : List String) : Nat :=
  countDupGo paths []

/-- Number of unordered pairs of resources sharing a route path, the
quantity named by the claim. -/
def specDupPairCount (resources : List ResourceDef) : Nat :=
  let paths := resources.map (·.routePath)
  (List.range paths.length).foldl
    (fun acc i => acc + (paths.drop (i + 1)).count (paths.getD i "")) 0

example :
    validateResources [⟨"a", "p"⟩, ⟨"b", "p"⟩, ⟨"c", "p"⟩] =
      [dupRouteError "p" "a" "b", dupRouteError "p" "a" "c"] := by decide
example : specDupPairCount [⟨"a", "p"⟩, ⟨"b", "p"⟩, ⟨"c", "p"⟩] = 3 := by decide

/-- Per-view configuration read by `getVisibleColumns`
(`options.index` / `options.show`): optional whitelist and blacklist. -/
structure ViewConfig where
  columns : Option (List String)
  exclude : Option (List String)
deriving DecidableEq, Repr

/-- `hay` begins with `pat` (character-list prefix test). -/
def listStartsWith : List Char → List Char → Bool
  | _, [] => true
  | [], _ :: _ => false
  | c :: cs, p :: ps => c = p && listStartsWith cs ps

/-- `hay` contains `pat` as a contiguous segment, the semantics of JS
`String.includes`. -/
def listContainsSeg : List Char → List Char → Bool
  | [], pat => pat.isEmpty
  | c :: cs, pat => listStartsWith (c :: cs) pat || listContainsSeg cs pat

/-- `isPasswordColumn` from `views/index.ts` (inlined in
`views/show.ts`): `col.name.toLowerCase().includes('password')`. -/
def isPasswordColumn (col : ColumnMeta) : Bool :=
  listContainsSeg (col.name.data.map Char.toLower) "password".data

namespace IndexView

/-- `getVisibleColumns` from `views/index.ts`: drop password columns
first, then apply the whitelist if configured, else the blacklist if
configured. -/
def getVisibleColumns (columns : List ColumnMeta) (config : Option ViewConfig) :
    List ColumnMeta :=
  let result := columns.filter (fun col => !isPasswordColumn col)
  match config with
  | none => result
  | some cfg =>
    match cfg.columns with
    | some allow => result.filter (fun col => allow.contains col.name)
    | none =>
      match cfg.exclude with
      | some deny => result.filter (fun col => !deny.contains col.name)
      | none => result

end IndexView

namespace ShowView

/-- `getVisibleColumns` from `views/show.ts`, identical logic to the
index view's. -/
def getVisibleColumns (columns : List ColumnMeta) (config : Option ViewConfig) :
    List ColumnMeta :=
  let result := columns.filter (fun col => !isPasswordColumn col)
  match config with
  | none => result
  | some cfg =>
    match cfg.columns with
    | some allow => result.filter (fun col => allow.contains col.name)
    | none =>
      match cfg.exclude with
      | some deny => result.filter (fun col => !deny.contains col.name)
      | none => result

end ShowView

/-- `isAutoManaged` from `views/form.ts`: primary keys always; the four
timestamp column names only when they have a database default. -/
def isAutoManaged (column : ColumnMeta) : Bool :=
  if column.isPrimaryKey then true
  else if column.name = "createdAt" ∨ column.name = "created_at" ∨
      column.name = "updatedAt" ∨ column.name = "updated_at" then
    column.hasDefault
  else false

example :
    IndexView.getVisibleColumns
      [⟨"passwordHash", "password_hash", "text", false, false, false, none⟩]
      (some ⟨some ["passwordHash"], none⟩) = [] := by decide

/-- A value stored into the `values` record by `parseFormValues`
(routes/crud.ts).  `α` is the type of parsed JSON documents, abstract
here because `JSON.parse` is a runtime primitive; `vnan` is the `NaN`
that `parseInt` yields on non-numeric input; `vdate` keeps the raw
string handed to `new Date(...)`. -/
inductive FormValue (α : Type) where
  | vnull
  | vbool (b : Bool)
  | vint (n : Int)
  | vnan
  | vjson (j : α)
  | vdate (raw : String)
  | vstr (s : String)
deriving DecidableEq, Repr

/-- JS `parseInt(s, 10)`: skip leading spaces, optional sign, then the
longest digit run; `none` models `NaN`. -/
def jsParseInt (s : String) : Option Int :=
  let t := s.data.dropWhile (fun c => c = ' ')
  let signAndRest : Int × List Char :=
    match t with
    | '-' :: r => (-1, r)
    | '+' :: r => (1, r)
    | r => (1, r)
  let digits := signAndRest.2.takeWhile Char.isDigit
  if digits.isEmpty then none
  else some (signAndRest.1 * (digits.foldl (fun a c => a * 10 + ((c.toNat : Int) - 48)) 0))

/-- One column's exclusion test in the `parseFormValues` loop: the three
`continue` statements (primary key, `createdAt`/`created_at`, absence
from `permitParams` when that whitelist is given). -/
def excludedFromForm (col : ColumnMeta) (permitParams : Option (List String)) : Bool :=
  col.isPrimaryKey ||
    (col.name = "createdAt" || col.name = "created_at") ||
    (match permitParams with
     | some ps => !ps.contains col.name
     | none => false)

/-- The per-column value computation of `parseFormValues`. `raw` is
`body[col.name]` (`none` for an absent field); JS truthiness of a string
is non-emptiness.  The `json` branch wraps `JSON.parse` (modelled by the
total `jsonParse`, `none` for a parse error) in try/catch, turning a
parse error into `null`. -/
def parseFormValue {α : Type} (jsonParse : String → Option α)
    (col : ColumnMeta) (raw : Option String) : FormValue α :=
  if col.dataType = "boolean" then
    .vbool (raw = some "true")
  else if col.dataType = "integer" then
    match raw with
    | some s =>
      if s = "" then .vnull
      else
        match jsParseInt s with
        | some n => .vint n
        | none => .vnan
    | none => .vnull
  else if col.dataType = "json" then
    match raw with
    | some s =>
      if s = "" then .vnull
      else
        match jsonParse s with
        | some j => .vjson j
        | none => .vnull
    | none => .vnull
  else if col.dataType = "timestamp" then
    match raw with
    | some s => if s = "" then .vnull else .vdate s
    | none => .vnull
  else
    match raw with
    | some s => .vstr s
    | none => .vnull

/-- Assignment `values[k] = v` on the record modelled as a partial
map. -/
def recordSet {β : Type} (values : String → Option β) (k : String) (v : Option β) :
    String → Option β :=
  fun x => if x = k then v else values x

/-- `parseFormValues` from `routes/crud.ts`.  The JS `values` object is
modelled as a partial map from key to value; assignment is functional
update, so a later column with the same name overwrites an earlier
one just as in JS. -/
def parseFormValues {α : Type} (jsonParse : String → Option α)
    (body : String → Option String) (columns : List ColumnMeta)
    (permitParams : Option (List String)) : String → Option (FormValue α) :=
  columns.foldl
    (fun values col =>
      if excludedFromForm col permitParams then values
      else recordSet values col.name (some (parseFormValue jsonParse col (body col.name))))
    (fun _ => none)

/-- The JWT payload signed by `createToken` (auth/jwt.ts). -/
structure AdminTokenPayload where
  adminId : Nat
  email : String
deriving DecidableEq, Repr

/-- A cookie/form token string: either a well-formed JWT produced by
signing a payload with a secret at some issue time with some expiry, or
any other string. -/
inductive TokenString where
  | signed (adminId : Nat) (email : String) (secret : String) (issuedAt expiry : Nat)
  | malformed (s : String)
deriving DecidableEq, Repr

/-- The failure modes of `jose.jwtVerify`. -/
inductive JwtError where
  | malformed
  | badSignature
  | expired
deriving DecidableEq, Repr

/-- `jose.jwtVerify` (the delegated cryptographic primitive): throws on
a malformed token, a signature made with a different secret, or an
expired token; otherwise returns the payload.  `now` is the clock in
seconds. -/
def jwtVerify (token : TokenString) (secret : String) (now : Nat) :
    Except JwtError AdminTokenPayload :=
  match token with
  | .malformed _ => .error .malformed
  | .signed adminId email sec _ expiry =>
    if sec ≠ secret then .error .badSignature
    else if expiry ≤ now then .error .expired
    else .ok ⟨adminId, email⟩

/-- `TOKEN_EXPIRY = '24h'` from auth/jwt.ts, in seconds. -/
def tokenExpirySeconds : Nat := 24 * 60 * 60

/-- `createToken` from auth/jwt.ts: sign the payload, with
`setIssuedAt()` and `setExpirationTime('24h')`. -/
def createToken (payload : AdminTokenPayload) (secret : String) (now : Nat) : TokenString :=
  .signed payload.adminId payload.email secret now (now + tokenExpirySeconds)

/-- The `exp` claim carried by a token, when it is a well-formed JWT. -/
def tokenExp : TokenString → Option Nat
  | .signed _ _ _ _ expiry => some expiry
  | .malformed _ => none

/-- `verifyToken` from auth/jwt.ts: `jwtVerify` wrapped in try/catch,
every thrown error becoming `null`. -/
def verifyToken (token : TokenString) (secret : String) (now : Nat) :
    Option AdminTokenPayload :=
  (jwtVerify token secret now).toOption

/-- `generateCsrfToken` from auth/csrf.ts: `createToken` on the fixed
payload, so it carries the same 24-hour signed expiry. -/
def generateCsrfToken (secret : String) (now : Nat) : TokenString :=
  createToken ⟨0, "csrf"⟩ secret now

/-- The `maxAge` of the CSRF cookie set by `setCsrfCookie`
(auth/csrf.ts), in seconds. -/
def csrfCookieMaxAge : Nat := 60 * 60

/-- `validateCsrf` from auth/csrf.ts: both cookie token and form token
must be present, equal, and verify as a validly-signed unexpired
token. -/
def validateCsrf (cookieToken formToken : Option TokenString)
    (secret : String) (now : Nat) : Bool :=
  match cookieToken, formToken with
  | some ct, some ft =>
    if ct ≠ ft then false
    else (verifyToken ct secret now).isSome
  | _, _ => false

/-- Outcome of one pass through `authMiddleware` (auth/middleware.ts):
redirect to `/login` (recording whether the stale cookie was cleared)
or proceed with the decoded admin payload. -/
inductive AuthResult where
  | redirectLogin (clearedCookie : Bool)
  | proceed (payload : AdminTokenPayload)
deriving DecidableEq, Repr

/-- `authMiddleware` from auth/middleware.ts: missing cookie redirects
to login; a cookie that fails `verifyToken` is cleared and redirects to
login; a valid cookie proceeds. -/
def authMiddlewareStep (cookie : Option TokenString) (secret : String) (now : Nat) :
    AuthResult :=
  match cookie with
  | none => .redirectLogin false
  | some token =>
    match verifyToken token secret now with
    | none => .redirectLogin true
    | some payload => .proceed payload

/-- Flash message kinds (utils/flash.ts). -/
inductive FlashType where
  | success
  | error
  | info
deriving DecidableEq, Repr

/-- What a CRUD mutation handler returns: the flash it set, and the
redirect target. -/
structure HandlerResponse where
  flash : Option (FlashType × String)
  redirect : String
deriving DecidableEq, Repr

/-- A database mutation issued by a CRUD handler. -/
inductive DbOp where
  | ins
  | upd (id : Nat)
  | del (id : Nat)
deriving DecidableEq, Repr

/-- The request data the CRUD mutation handlers inspect: the CSRF cookie
and the `_csrf` form field. -/
structure CrudRequest where
  csrfCookie : Option TokenString
  csrfField : Option TokenString
deriving DecidableEq, Repr

/-- The `POST /` create handler (routes/crud.ts): CSRF failure
short-circuits to an error flash and a redirect to the new-form; a
database failure (`dbError = some msg`) is caught into an error flash;
success appends the insert and redirects to the created row.  `log` is
the sequence of database mutations performed so far. -/
def handleCreate (routePath displayName secret : String) (now : Nat)
    (req : CrudRequest) (newId : Nat) (dbError : Option String)
    (log : List DbOp) : List DbOp × HandlerResponse :=
  if validateCsrf req.csrfCookie req.csrfField secret now = false then
    (log, ⟨some (.error, "Invalid request. Please try again."), "/" ++ routePath ++ "/new"⟩)
  else
    match dbError with
    | none =>
      (log ++ [.ins],
        ⟨some (.success, displayName ++ " created successfully."),
          "/" ++ routePath ++ "/" ++ toString newId⟩)
    | some msg =>
      (log, ⟨some (.error, "Failed to create: " ++ msg), "/" ++ routePath ++ "/new"⟩)

/-- `handleDelete` from routes/crud.ts: deletes by id with no CSRF
check of its own; a database failure is caught into an error flash. -/
def handleDelete (routePath displayName : String) (id : Nat)
    (dbError : Option String) (log : List DbOp) : List DbOp × HandlerResponse :=
  match dbError with
  | none =>
    (log ++ [.del id],
      ⟨some (.success, displayName ++ " deleted successfully."), "/" ++ routePath⟩)
  | some msg =>
    (log, ⟨some (.error, "Failed to delete: " ++ msg),
      "/" ++ routePath ++ "/" ++ toString id⟩)

/-- The `POST /:id` handler (routes/crud.ts): when `_method=DELETE` it
returns `handleDelete` immediately — before the CSRF validation that
guards the update path; otherwise it validates CSRF and performs the
update. -/
def handlePostId (routePath displayName secret : String) (now : Nat)
    (methodQuery : Option String) (req : CrudRequest) (id : Nat)
    (dbError : Option String) (log : List DbOp) : List DbOp × HandlerResponse :=
  if methodQuery = some "DELETE" then
    handleDelete routePath displayName id dbError log
  else if validateCsrf req.csrfCookie req.csrfField secret now = false then
    (log, ⟨some (.error, "Invalid request. Please try again."),
      "/" ++ routePath ++ "/" ++ toString id ++ "/edit"⟩)
  else
    match dbError with
    | none =>
      (log ++ [.upd id],
        ⟨some (.success, displayName ++ " updated successfully."),
          "/" ++ routePath ++ "/" ++ toString id⟩)
    | some msg =>
      (log, ⟨some (.error, "Failed to update: " ++ msg),
        "/" ++ routePath ++ "/" ++ toString id ++ "/edit"⟩)

example :
    handlePostId "cards" "Card" "secret" 0 (some "DELETE") ⟨none, none⟩ 7 none [] =
      ([.del 7], ⟨some (.success, "Card deleted successfully."), "/cards"⟩) := by decide

/-- The native type identifiers handled by the primitive if-chain of
`mapPgType`, before its enum check. -/
def recognizedPrimitive (t : String) : Bool :=
  decide (t = "string" ∨ t = "text" ∨ t = "varchar" ∨ t = "number" ∨ t = "integer" ∨
    t = "serial" ∨ t = "boolean" ∨ t = "date" ∨ t = "timestamp" ∨ t = "json" ∨ t = "jsonb")

/-- `enumValues` is present and non-empty. -/
def enumValuesNonEmpty (m : ColumnMeta) : Bool :=
  match m.enumValues with
  | some (_ :: _) => true
  | _ => false

/-- The spec's invariant on a column list: `enumValues` non-empty iff
`dataType = enum`, stated from the claim's words. -/
def columnEnumInvariant (metas : List ColumnMeta) : Bool :=
  metas.all (fun m => enumValuesNonEmpty m == (m.dataType == "enum"))

/-! ## Claim theorems -/

/-- C8: `tableNameToDisplayName` splits on underscore, title-cases each
word, joins with spaces and strips one trailing "s"; in particular it
maps "sale_orders" to "Sale Order" and "cards" to "Card". -/
theorem tableNameToDisplayName_spec :
    tableNameToDisplayName "sale_orders" = "Sale Order" ∧
    tableNameToDisplayName "cards" = "Card" := by decide

/-- C1: the destroy route performs the delete without any CSRF check —
`handlePostId` dispatches to `handleDelete` before `validateCsrf` runs —
so a request with no CSRF cookie or field still mutates the database and
even sets a success flash, while the create and update paths of the very
same handler short-circuit on the same invalid request with an error
flash, no mutation, and a redirect to the form. -/
theorem destroy_bypasses_csrf_validation :
    validateCsrf none none "secret" 0 = false ∧
    handlePostId "cards" "Card" "secret" 0 (some "DELETE") ⟨none, none⟩ 7 none [] =
      ([.del 7], ⟨some (.success, "Card deleted successfully."), "/cards"⟩) ∧
    handleCreate "cards" "Card" "secret" 0 ⟨none, none⟩ 9 none [] =
      ([], ⟨some (.error, "Invalid request. Please try again."), "/cards/new"⟩) ∧
    handlePostId "cards" "Card" "secret" 0 none ⟨none, none⟩ 7 none [] =
      ([], ⟨some (.error, "Invalid request. Please try again."), "/cards/7/edit"⟩) := by
  decide

/-- C2 counterexample: a column whose native type identifier is
`"string"` and which carries an enum value list is tagged `"text"`, not
`"enum"` — the enum check does not take priority over the primitive-type
mapping. -/
theorem mapPgType_string_enum_is_text :
    mapPgType ⟨"status", "string", true, false, false, some ["active", "inactive"]⟩ = "text" ∧
    mapPgType ⟨"status", "string", true, false, false, some ["active", "inactive"]⟩ ≠ "enum" := by
  decide

/-- C2 amended: the enum check runs only after every primitive-type
mapping has missed.  A column whose native type is `"string"` is tagged
`"text"` even when it carries an enum list; a column with an
unrecognized native type is tagged `"enum"` exactly when it has an enum
list, and `"text"` otherwise. -/
theorem mapPgType_enum_after_primitives :
    ∀ c : PgColumn,
      (c.dataType = "string" → mapPgType c = "text") ∧
      (recognizedPrimitive c.dataType = false →
        mapPgType c = if c.enumValues.isSome then "enum" else "text") := by
  intro c
  constructor
  · intro h
    simp [mapPgType, h]
  · intro h
    have hp := of_decide_eq_false h
    push_neg at hp
    obtain ⟨h1, h2, h3, h4, h5, h6, h7, h8, h9, h10, h11⟩ := hp
    simp [mapPgType, h1, h2, h3, h4, h5, h6, h7, h8, h9, h10, h11]

/-- C2 witness: a column with unrecognized native type `"custom"` and an
enum list is tagged `"enum"`. -/
theorem mapPgType_enum_after_primitives_witness :
    recognizedPrimitive "custom" = false ∧
    mapPgType ⟨"mood", "custom", true, false, false, some ["happy"]⟩ = "enum" :=
  ⟨by decide,
    (mapPgType_enum_after_primitives ⟨"mood", "custom", true, false, false, some ["happy"]⟩).2
      (by decide)⟩

/-- C3 counterexample: `extractColumns` on a `"string"`-typed column
carrying an enum list yields `dataType = "text"` with non-empty
`enumValues`, so the invariant "`enumValues` non-empty iff
`dataType = enum`" fails. -/
theorem extractColumns_enum_invariant_fails :
    columnEnumInvariant
      (extractColumns [("status", ⟨"status", "string", true, false, false,
        some ["active", "inactive"]⟩)]) = false := by decide

/-- C5 counterexample: the CSRF token minted by `generateCsrfToken`
carries a signed expiry of 24 hours (86400 seconds), not 1 hour. -/
theorem csrf_token_expiry_not_one_hour :
    tokenExp (generateCsrfToken "test-secret" 0) = some 86400 ∧
    tokenExp (generateCsrfToken "test-secret" 0) ≠ some 3600 := by decide

/-- C10: `verifyToken` is total — it is exactly `jwtVerify` with every
thrown error caught into `none` — and whenever it yields `none` the
session middleware responds by clearing the cookie and redirecting to
login, and CSRF validation reports failure; no invalid token crashes a
request. -/
theorem verifyToken_total_never_crashes :
    ∀ (t : TokenString) (s : String) (now : Nat),
      verifyToken t s now = (jwtVerify t s now).toOption ∧
      (verifyToken t s now = none →
        authMiddlewareStep (some t) s now = .redirectLogin true ∧
        validateCsrf (some t) (some t) s now = false) := by
  intro t s now
  refine ⟨rfl, fun h => ⟨?_, ?_⟩⟩
  · simp [authMiddlewareStep, h]
  · simp [validateCsrf, h]

/-- C10 witness: the malformed token string is rejected everywhere
without crashing. -/
theorem verifyToken_total_never_crashes_witness :
    verifyToken (.malformed "not-a-valid-token") "test-secret" 0 = none ∧
    authMiddlewareStep (some (.malformed "not-a-valid-token")) "test-secret" 0 =
      .redirectLogin true ∧
    validateCsrf (some (.malformed "not-a-valid-token"))
      (some (.malformed "not-a-valid-token")) "test-secret" 0 = false :=
  ⟨rfl,
    ((verifyToken_total_never_crashes (.malformed "not-a-valid-token") "test-secret" 0).2 rfl).1,
    ((verifyToken_total_never_crashes (.malformed "not-a-valid-token") "test-secret" 0).2 rfl).2⟩

/-- C5 amended: both session tokens (`createToken`) and CSRF tokens
(`generateCsrfToken`) carry a signed expiry of 24 hours; the CSRF
cookie's `maxAge` is 1 hour; and verification only ever accepts a token
whose signed expiry lies strictly in the future. -/
theorem token_expiry_24h_enforced :
    ∀ (p : AdminTokenPayload) (secret : String) (now : Nat),
      tokenExp (createToken p secret now) = some (now + 24 * 60 * 60) ∧
      tokenExp (generateCsrfToken secret now) = some (now + 24 * 60 * 60) ∧
      csrfCookieMaxAge = 60 * 60 ∧
      (∀ (t : TokenString) (q : AdminTokenPayload),
        verifyToken t secret now = some q → ∃ x, tokenExp t = some x ∧ now < x) := by
  intro p secret now
  refine ⟨rfl, rfl, rfl, ?_⟩
  intro t q h
  cases t with
  | malformed s => simp [verifyToken, jwtVerify, Except.toOption] at h
  | signed adminId email sec iat expiry =>
    by_cases hs : sec = secret
    · by_cases he : expiry ≤ now
      · simp [verifyToken, jwtVerify, hs, he, Except.toOption] at h
      · exact ⟨expiry, rfl, by omega⟩
    · simp [verifyToken, jwtVerify, hs, Except.toOption] at h

/-- C5 witness: a session token issued at time 0 verifies at time 5 and
its signed expiry (86400) is in the future. -/
theorem token_expiry_24h_enforced_witness :
    tokenExp (createToken ⟨1, "a@b"⟩ "k" 5) = some (5 + 24 * 60 * 60) ∧
    verifyToken (createToken ⟨1, "a@b"⟩ "k" 0) "k" 5 = some ⟨1, "a@b"⟩ ∧
    ∃ x, tokenExp (createToken ⟨1, "a@b"⟩ "k" 0) = some x ∧ 5 < x :=
  ⟨(token_expiry_24h_enforced ⟨1, "a@b"⟩ "k" 5).1,
    by decide,
    (token_expiry_24h_enforced ⟨1, "a@b"⟩ "k" 5).2.2.2
      (createToken ⟨1, "a@b"⟩ "k" 0) ⟨1, "a@b"⟩ (by decide)⟩

/-- C3 amended: `extractColumns` yields exactly one `ColumnMeta` per
declared column, each entry's `enumValues` is copied verbatim from the
schema column, and `dataType = "enum"` implies `enumValues` is present;
but presence of a non-empty `enumValues` does not imply
`dataType = "enum"` (see the counterexample), so the biconditional
invariant fails. -/
theorem extractColumns_length_and_enum :
    ∀ cols : List (String × PgColumn),
      (extractColumns cols).length = cols.length ∧
      ∀ m ∈ extractColumns cols,
        (∃ entry ∈ cols, m.enumValues = entry.2.enumValues) ∧
        (m.dataType = "enum" → m.enumValues.isSome) := by
  intro cols
  refine ⟨List.length_map _ _, ?_⟩
  intro m hm
  rw [extractColumns, List.mem_map] at hm
  obtain ⟨entry, hentry, rfl⟩ := hm
  refine ⟨⟨entry, hentry, rfl⟩, ?_⟩
  intro hdt
  show (extractEnumValues entry.2).isSome
  unfold extractEnumValues
  unfold mapPgType at hdt
  split_ifs at hdt with h1 h2 h3 h4 h5 h6
  · simp at hdt
  · simp at hdt
  · simp at hdt
  · simp at hdt
  · simp at hdt
  · exact h6
  · simp at hdt

/-- C3 witness: a single-column catalog with an unrecognized native type
and an enum list yields one entry, tagged enum with `enumValues`
present. -/
theorem extractColumns_length_and_enum_witness :
    (extractColumns [("tag", ⟨"tag", "custom", false, false, false, some ["x"]⟩)]).length = 1 ∧
    (⟨"tag", "tag", "enum", true, false, false, some ["x"]⟩ : ColumnMeta).enumValues.isSome :=
  ⟨(extractColumns_length_and_enum [("tag", ⟨"tag", "custom", false, false, false, some ["x"]⟩)]).1,
    ((extractColumns_length_and_enum [("tag", ⟨"tag", "custom", false, false, false, some ["x"]⟩)]).2
      ⟨"tag", "tag", "enum", true, false, false, some ["x"]⟩ (by decide)).2 (by decide)⟩

/-- C6 counterexample: an `updatedAt` column with a database default is
auto-managed for form rendering, yet `parseFormValues` still emits a key
for it — the exclusion rules of `parseFormValues` never mention
`updatedAt`/`updated_at`. -/
theorem parseFormValues_keeps_defaulted_updatedAt :
    isAutoManaged ⟨"updatedAt", "updated_at", "timestamp", false, false, true, none⟩ = true ∧
    parseFormValues (fun _ => (none : Option Nat))
      (fun k => if k = "updatedAt" then some "2024-01-01" else none)
      [⟨"updatedAt", "updated_at", "timestamp", false, false, true, none⟩] none "updatedAt" =
      some (.vdate "2024-01-01") := by decide

/-- C7: no column whose name contains the case-insensitive substring
"password" ever appears among the visible columns of the index or show
view, for any configuration (whitelists included, since the password
filter runs first). -/
theorem password_columns_never_visible :
    ∀ (cols : List ColumnMeta) (config : Option ViewConfig) (col : ColumnMeta),
      (col ∈ IndexView.getVisibleColumns cols config → isPasswordColumn col = false) ∧
      (col ∈ ShowView.getVisibleColumns cols config → isPasswordColumn col = false) := by
  intro cols config col
  have key : ∀ l : List ColumnMeta,
      col ∈ l.filter (fun c => !isPasswordColumn c) → isPasswordColumn col = false := by
    intro l hl
    simpa using (List.mem_filter.mp hl).2
  have main : col ∈ IndexView.getVisibleColumns cols config → isPasswordColumn col = false := by
    intro h
    simp only [IndexView.getVisibleColumns] at h
    rcases config with _ | ⟨copt, eopt⟩
    · exact key _ h
    · rcases copt with _ | allow
      · rcases eopt with _ | deny
        · exact key _ h
        · exact key _ (List.mem_filter.mp h).1
      · exact key _ (List.mem_filter.mp h).1
  refine ⟨main, ?_⟩
  have hsame : ShowView.getVisibleColumns cols config = IndexView.getVisibleColumns cols config := rfl
  rw [hsame]
  exact main

/-- C7 witness: a non-password column under the empty configuration is
visible, and indeed is not password-like. -/
theorem password_columns_never_visible_witness :
    isPasswordColumn ⟨"title", "title", "text", true, false, false, none⟩ = false :=
  (password_columns_never_visible
    [⟨"title", "title", "text", true, false, false, none⟩] none
    ⟨"title", "title", "text", true, false, false, none⟩).1 (by decide)

/-- Association-list lookup misses exactly when the key is absent. -/
theorem lookup_none_iff (seen : List (String × String)) (p : String) :
    seen.lookup p = none ↔ p ∉ seen.map Prod.fst := by
  induction seen with
  | nil => simp [List.lookup]
  | cons head tail ih =>
    obtain ⟨k, v⟩ := head
    by_cases hpk : p = k
    · subst hpk
      simp [List.lookup]
    · have hbeq : (p == k) = false := beq_eq_false_iff_ne.mpr hpk
      simp only [List.lookup, hbeq]
      rw [ih]
      simp only [List.map_cons, List.mem_cons, not_or]
      exact ⟨fun h => ⟨hpk, h⟩, And.right⟩

/-- Association-list lookup hits only stored pairs. -/
theorem lookup_some_mem (seen : List (String × String)) (p t : String)
    (h : seen.lookup p = some t) : (p, t) ∈ seen := by
  induction seen with
  | nil => simp [List.lookup] at h
  | cons head tail ih =>
    obtain ⟨k, v⟩ := head
    by_cases hpk : p = k
    · subst hpk
      simp [List.lookup] at h
      simp [h]
    · have hbeq : (p == k) = false := beq_eq_false_iff_ne.mpr hpk
      simp only [List.lookup, hbeq] at h
      exact List.mem_cons_of_mem _ (ih h)

/-- `countDupGo` only depends on the membership of its `seen` set. -/
theorem countDupGo_congr :
    ∀ (ps : List String) (s1 s2 : List String),
      (∀ q, q ∈ s1 ↔ q ∈ s2) → countDupGo ps s1 = countDupGo ps s2 := by
  intro ps
  induction ps with
  | nil => intro s1 s2 _; rfl
  | cons p rest ih =>
    intro s1 s2 h
    unfold countDupGo
    have h1 : (if p ∈ s1 then (1 : Nat) else 0) = if p ∈ s2 then 1 else 0 := by
      by_cases hp : p ∈ s1
      · rw [if_pos hp, if_pos ((h p).mp hp)]
      · rw [if_neg hp, if_neg (fun hc => hp ((h p).mpr hc))]
    rw [h1, ih (p :: s1) (p :: s2) (by intro q; simp [List.mem_cons, h q])]

/-- With pairwise-distinct paths, none of which is pre-seen, no
duplicate is counted. -/
theorem countDupGo_eq_zero :
    ∀ (ps : List String) (seen : List String),
      ps.Nodup → (∀ p ∈ ps, p ∉ seen) → countDupGo ps seen = 0 := by
  intro ps
  induction ps with
  | nil => intro seen _ _; rfl
  | cons p rest ih =>
    intro seen hnd hdisj
    unfold countDupGo
    rw [if_neg (hdisj p (List.mem_cons_self _ _))]
    rw [ih (p :: seen) hnd.of_cons]
    intro q hq
    simp only [List.mem_cons, not_or]
    exact ⟨fun hqp => (List.nodup_cons.mp hnd).1 (hqp ▸ hq), hdisj q (List.mem_cons_of_mem _ hq)⟩

/-- The error list of `validateGo` is as long as the number of resources
whose route path was already seen (in the map or earlier in the list). -/
theorem validateGo_length :
    ∀ (rs : List ResourceDef) (seen : List (String × String)),
      (validateGo rs seen).length = countDupGo (rs.map (·.routePath)) (seen.map Prod.fst) := by
  intro rs
  induction rs with
  | nil => intro seen; rfl
  | cons r rest ih =>
    intro seen
    unfold validateGo
    cases hl : seen.lookup r.routePath with
    | some t =>
      have hpair := lookup_some_mem seen r.routePath t hl
      have hmem : r.routePath ∈ seen.map Prod.fst :=
        List.mem_map.mpr ⟨(r.routePath, t), hpair, rfl⟩
      have hcongr : countDupGo (rest.map (·.routePath)) (r.routePath :: seen.map Prod.fst) =
          countDupGo (rest.map (·.routePath)) (seen.map Prod.fst) := by
        apply countDupGo_congr
        intro q
        simp only [List.mem_cons]
        constructor
        · rintro (rfl | hq)
          · exact hmem
          · exact hq
        · exact Or.inr
      simp only [List.map_cons, countDupGo, if_pos hmem, List.length_cons, ih seen, hcongr]
      omega
    | none =>
      have hmem : r.routePath ∉ seen.map Prod.fst := (lookup_none_iff _ _).mp hl
      have := ih ((r.routePath, r.tableName) :: seen)
      simp only [List.map_cons] at this
      simp only [List.map_cons, countDupGo, if_neg hmem, this]
      omega

/-- Every error produced by `validateGo` is a `dupRouteError` naming a
table already registered for the path (in the map, or earlier in the
remaining list) and the table of a resource in the list with that
path. -/
theorem validateGo_mem_shape :
    ∀ (rs : List ResourceDef) (seen : List (String × String)) (e : String),
      e ∈ validateGo rs seen →
      ∃ p a b, e = dupRouteError p a b ∧
        ((p, a) ∈ seen ∨ ∃ r ∈ rs, r.routePath = p ∧ r.tableName = a) ∧
        (∃ r ∈ rs, r.routePath = p ∧ r.tableName = b) := by
  intro rs
  induction rs with
  | nil => intro seen e h; simp [validateGo] at h
  | cons r rest ih =>
    intro seen e h
    unfold validateGo at h
    cases hl : seen.lookup r.routePath with
    | some t =>
      rw [hl] at h
      rcases List.mem_cons.mp h with rfl | hrec
      · exact ⟨r.routePath, t, r.tableName, rfl,
          Or.inl (lookup_some_mem seen r.routePath t hl),
          ⟨r, List.mem_cons_self _ _, rfl, rfl⟩⟩
      · obtain ⟨p, a, b, he, ha, hb⟩ := ih seen e hrec
        refine ⟨p, a, b, he, ?_, ?_⟩
        · rcases ha with ha | ⟨r', hr', hprop⟩
          · exact Or.inl ha
          · exact Or.inr ⟨r', List.mem_cons_of_mem _ hr', hprop⟩
        · obtain ⟨r', hr', hprop⟩ := hb
          exact ⟨r', List.mem_cons_of_mem _ hr', hprop⟩
    | none =>
      rw [hl] at h
      obtain ⟨p, a, b, he, ha, hb⟩ := ih ((r.routePath, r.tableName) :: seen) e h
      refine ⟨p, a, b, he, ?_, ?_⟩
      · rcases ha with ha | ⟨r', hr', hprop⟩
        · rcases List.mem_cons.mp ha with heq | ha'
          · obtain ⟨h1, h2⟩ := Prod.mk.inj heq
            exact Or.inr ⟨r, List.mem_cons_self _ _, h1.symm, h2.symm⟩
          · exact Or.inl ha'
        · exact Or.inr ⟨r', List.mem_cons_of_mem _ hr', hprop⟩
      · obtain ⟨r', hr', hprop⟩ := hb
        exact ⟨r', List.mem_cons_of_mem _ hr', hprop⟩

/-- C4 counterexample: with three resources sharing one route path there
are three offending pairs but `validateResources` reports only two
errors (the map keeps the first table per path, so each later duplicate
is paired with the first occurrence only). -/
theorem validateResources_pair_count_mismatch :
    specDupPairCount [⟨"alpha", "p"⟩, ⟨"beta", "p"⟩, ⟨"gamma", "p"⟩] = 3 ∧
    (validateResources [⟨"alpha", "p"⟩, ⟨"beta", "p"⟩, ⟨"gamma", "p"⟩]).length = 2 := by
  decide

/-- C4 amended: `validateResources` returns the empty list when all
route paths are distinct, returns exactly one error per resource whose
route path already occurred earlier in the list, and every error is the
duplicate-route message naming the table names of two resources sharing
that path. -/
theorem validateResources_duplicates :
    ∀ rs : List ResourceDef,
      ((rs.map (·.routePath)).Nodup → validateResources rs = []) ∧
      (validateResources rs).length = countLaterDups (rs.map (·.routePath)) ∧
      ∀ e ∈ validateResources rs, ∃ p a b, e = dupRouteError p a b ∧
        (∃ r ∈ rs, r.routePath = p ∧ r.tableName = a) ∧
        (∃ r' ∈ rs, r'.routePath = p ∧ r'.tableName = b) := by
  intro rs
  have hlen : (validateResources rs).length = countLaterDups (rs.map (·.routePath)) := by
    have := validateGo_length rs []
    simpa [validateResources, countLaterDups] using this
  refine ⟨?_, hlen, ?_⟩
  · intro hnd
    have h0 : countDupGo (rs.map (·.routePath)) [] = 0 :=
      countDupGo_eq_zero _ [] hnd (by simp)
    have : (validateResources rs).length = 0 := by
      rw [hlen, countLaterDups, h0]
    exact List.length_eq_zero.mp this
  · intro e he
    obtain ⟨p, a, b, hE, hA, hB⟩ := validateGo_mem_shape rs [] e he
    rcases hA with hA | hA
    · simp at hA
    · exact ⟨p, a, b, hE, hA, hB⟩

/-- C4 witness: distinct route paths yield no errors; with a duplicated
path, the produced error is the duplicate-route message naming both
tables. -/
theorem validateResources_duplicates_witness :
    validateResources [⟨"users", "users"⟩, ⟨"posts", "posts"⟩] = [] ∧
    (∃ p a b, dupRouteError "users" "users" "app_users" = dupRouteError p a b ∧
      (∃ r ∈ ([⟨"users", "users"⟩, ⟨"app_users", "users"⟩] : List ResourceDef),
        r.routePath = p ∧ r.tableName = a) ∧
      (∃ r' ∈ ([⟨"users", "users"⟩, ⟨"app_users", "users"⟩] : List ResourceDef),
        r'.routePath = p ∧ r'.tableName = b)) :=
  ⟨(validateResources_duplicates [⟨"users", "users"⟩, ⟨"posts", "posts"⟩]).1 (by decide),
    (validateResources_duplicates [⟨"users", "users"⟩, ⟨"app_users", "users"⟩]).2.2
      (dupRouteError "users" "users" "app_users") (by decide)⟩

/-- Any key present after the `parseFormValues` fold was either present
before it, or was written by a non-excluded column with that name. -/
theorem parseFold_isSome {α : Type} (jp : String → Option α) (body : String → Option String)
    (permit : Option (List String)) :
    ∀ (cols : List ColumnMeta) (acc : String → Option (FormValue α)) (k : String),
      ((cols.foldl (fun values col =>
          if excludedFromForm col permit then values
          else recordSet values col.name (some (parseFormValue jp col (body col.name)))) acc) k).isSome →
      (acc k).isSome = true ∨ ∃ c ∈ cols, excludedFromForm c permit = false ∧ c.name = k := by
  intro cols
  induction cols with
  | nil => intro acc k h; exact Or.inl h
  | cons c rest ih =>
    intro acc k h
    rw [List.foldl_cons] at h
    rcases ih _ k h with hacc | ⟨c', hc', hex, hname⟩
    · by_cases hexc : excludedFromForm c permit = true
      · rw [if_pos hexc] at hacc
        exact Or.inl hacc
      · rw [if_neg hexc] at hacc
        unfold recordSet at hacc
        by_cases hk : k = c.name
        · exact Or.inr ⟨c, List.mem_cons_self _ _, Bool.not_eq_true _ ▸ hexc, hk.symm⟩
        · rw [if_neg hk] at hacc
          exact Or.inl hacc
    · exact Or.inr ⟨c', List.mem_cons_of_mem _ hc', hex, hname⟩

/-- The fold leaves a key untouched when every remaining column is
excluded or named differently. -/
theorem parseFold_preserve {α : Type} (jp : String → Option α) (body : String → Option String)
    (permit : Option (List String)) :
    ∀ (cols : List ColumnMeta) (acc : String → Option (FormValue α)) (k : String),
      (∀ c ∈ cols, excludedFromForm c permit = true ∨ c.name ≠ k) →
      (cols.foldl (fun values col =>
          if excludedFromForm col permit then values
          else recordSet values col.name (some (parseFormValue jp col (body col.name)))) acc) k
        = acc k := by
  intro cols
  induction cols with
  | nil => intro acc k _; rfl
  | cons c rest ih =>
    intro acc k hall
    rw [List.foldl_cons, ih _ k (fun c' hc' => hall c' (List.mem_cons_of_mem _ hc'))]
    by_cases hexc : excludedFromForm c permit = true
    · rw [if_pos hexc]
    · rw [if_neg hexc]
      unfold recordSet
      rcases hall c (List.mem_cons_self _ _) with hex | hname
      · exact absurd hex hexc
      · rw [if_neg (fun hk => hname hk.symm)]

/-- The fold stores exactly the parsed value of a non-excluded column
when column names are unique. -/
theorem parseFold_lookup {α : Type} (jp : String → Option α) (body : String → Option String)
    (permit : Option (List String)) :
    ∀ (cols : List ColumnMeta) (acc : String → Option (FormValue α)) (c : ColumnMeta),
      c ∈ cols → (cols.map (·.name)).Nodup → excludedFromForm c permit = false →
      (cols.foldl (fun values col =>
          if excludedFromForm col permit then values
          else recordSet values col.name (some (parseFormValue jp col (body col.name)))) acc) c.name
        = some (parseFormValue jp c (body c.name)) := by
  intro cols
  induction cols with
  | nil => intro acc c hc _ _; simp at hc
  | cons c0 rest ih =>
    intro acc c hc hnd hex
    simp only [List.map_cons, List.nodup_cons] at hnd
    rw [List.foldl_cons]
    rcases List.mem_cons.mp hc with rfl | hcr
    · have hrest : ∀ c' ∈ rest, excludedFromForm c' permit = true ∨ c'.name ≠ c.name := by
        intro c' hc'
        exact Or.inr fun heq => hnd.1 (List.mem_map.mpr ⟨c', hc', heq⟩)
      rw [parseFold_preserve jp body permit rest _ c.name hrest]
      rw [if_neg (by rw [hex]; exact Bool.false_ne_true)]
      unfold recordSet
      rw [if_pos rfl]
    · exact ih _ c hcr hnd.2 hex

/-- C6 amended: the record built by `parseFormValues` contains a key
only for a column of the list that is not a primary key, is not named
`createdAt`/`created_at`, and belongs to `permitParams` when that
whitelist is given.  (`updatedAt`/`updated_at` columns are not excluded
here even when they have a database default — see the counterexample —
that exclusion exists only in the form renderer's `isAutoManaged`.) -/
theorem parseFormValues_excluded_keys_absent :
    ∀ {α : Type} (jp : String → Option α) (body : String → Option String)
      (cols : List ColumnMeta) (permit : Option (List String)) (k : String),
      (parseFormValues jp body cols permit k).isSome →
      ∃ c ∈ cols, c.name = k ∧ c.isPrimaryKey = false ∧ k ≠ "createdAt" ∧ k ≠ "created_at" ∧
        ∀ ps, permit = some ps → ps.contains k = true := by
  intro α jp body cols permit k h
  have h' := parseFold_isSome jp body permit cols (fun _ => none) k h
  rcases h' with hacc | ⟨c, hc, hex, hname⟩
  · simp at hacc
  · subst hname
    simp only [excludedFromForm, Bool.or_eq_false_iff, decide_eq_false_iff_not] at hex
    obtain ⟨⟨hpk, hca, hca'⟩, hm⟩ := hex
    refine ⟨c, hc, rfl, hpk, hca, hca', ?_⟩
    intro ps hps
    rw [hps] at hm
    simpa using hm

/-- C6 witness: a plain permitted text column does produce a key, and
that key satisfies all the exclusion conditions. -/
theorem parseFormValues_excluded_keys_absent_witness :
    (parseFormValues (fun _ => (none : Option Nat))
      (fun k => if k = "title" then some "T" else none)
      [⟨"title", "title", "text", true, false, false, none⟩] (some ["title"]) "title").isSome ∧
    ∃ c ∈ ([⟨"title", "title", "text", true, false, false, none⟩] : List ColumnMeta),
      c.name = "title" ∧ c.isPrimaryKey = false ∧ "title" ≠ "createdAt" ∧
      "title" ≠ "created_at" ∧
      ∀ ps, (some ["title"] : Option (List String)) = some ps → ps.contains "title" = true :=
  ⟨by decide,
    parseFormValues_excluded_keys_absent (fun _ => (none : Option Nat))
      (fun k => if k = "title" then some "T" else none)
      [⟨"title", "title", "text", true, false, false, none⟩] (some ["title"]) "title"
      (by decide)⟩

/-- C9: for a json column (present in the column list, not excluded,
with unique column names) the parsed record maps the column to the
parsed document when the raw value is present, non-empty and parses; to
`null` when it is malformed (the parse failure is caught, never
propagated — `parseFormValues` is a total function); and to `null` when
it is absent or empty. -/
theorem parseFormValues_json_graceful :
    ∀ {α : Type} (jp : String → Option α) (body : String → Option String)
      (cols : List ColumnMeta) (permit : Option (List String)) (c : ColumnMeta),
      c ∈ cols → (cols.map (·.name)).Nodup → c.dataType = "json" →
      excludedFromForm c permit = false →
      parseFormValues jp body cols permit c.name =
        some (match body c.name with
          | none => FormValue.vnull
          | some s =>
            if s = "" then FormValue.vnull
            else
              match jp s with
              | some j => FormValue.vjson j
              | none => FormValue.vnull) := by
  intro α jp body cols permit c hc hnd hdt hex
  have hl : parseFormValues jp body cols permit c.name =
      some (parseFormValue jp c (body c.name)) :=
    parseFold_lookup jp body permit cols (fun _ => none) c hc hnd hex
  rw [hl]
  congr 1
  unfold parseFormValue
  rw [hdt]
  simp
  cases body c.name <;> rfl

/-- C9 witness: a parsable payload maps to the parsed document; a
malformed payload maps to `null`. -/
theorem parseFormValues_json_graceful_witness :
    parseFormValues (fun s => if s = "[1,2]" then some (7 : Nat) else none)
      (fun k => if k = "data" then some "[1,2]" else none)
      [⟨"data", "data", "json", true, false, false, none⟩] none "data" =
      some (FormValue.vjson 7) ∧
    parseFormValues (fun s => if s = "[1,2]" then some (7 : Nat) else none)
      (fun k => if k = "data" then some "oops" else none)
      [⟨"data", "data", "json", true, false, false, none⟩] none "data" =
      some FormValue.vnull :=
  ⟨parseFormValues_json_graceful (fun s => if s = "[1,2]" then some (7 : Nat) else none)
      (fun k => if k = "data" then some "[1,2]" else none)
      [⟨"data", "data", "json", true, false, false, none⟩] none
      ⟨"data", "data", "json", true, false, false, none⟩
      (by decide) (by decide) (by decide) (by decide),
    parseFormValues_json_graceful (fun s => if s = "[1,2]" then some (7 : Nat) else none)
      (fun k => if k = "data" then some "oops" else none)
      [⟨"data", "data", "json", true, false, false, none⟩] none
      ⟨"data", "data", "json", true, false, false, none⟩
      (by decide) (by decide) (by decide) (by decide)⟩
